import Mathlib

set_option maxRecDepth 100000

/-!
Verification of the VOACAP_MAPS decoding core against its specification.

The development shallowly embeds the Python sources:
  * `collect_data_to_database.py` — Maidenhead decoding (`maiden2latlon`),
    the stateful per-line parser (`collect_data`) and its sequential driver;
  * `run_p2p_matrix.py` — Maidenhead encoding (`latlon2loc`);
  * `voaAreaPlot.py` — the area-grid metric table (`IMG_TYPE_DICT`) and the
    per-line grid decoder.

Python strings (and the byte lines of the VG files, which are ASCII) are
modelled as `List Char`; Python floats are modelled as exact rationals `ℚ`
(the quantities involved are small decimals, far from any rounding
boundary relevant to the claims); a raised Python exception is modelled by
`Option`/`Except` failure.  The trigonometric geodesy of
`calculate_km_deg` is kept abstract as a function parameter `kmdeg`: no
claim below depends on its values, only on which arguments the parser
feeds it and where its results are stored.
-/

/-! ### Python string primitives on `List Char` -/

/-- Python `str.strip()` (the lines at hand are ASCII, so ASCII whitespace
suffices): drop whitespace from both ends. -/
def pyStrip (s : List Char) : List Char :=
  (s.dropWhile Char.isWhitespace).reverse.dropWhile Char.isWhitespace |>.reverse

/-- Python `str.split(sep)` for a one-character separator `sep`: split on
every occurrence, keeping empty pieces. -/
def pySplitChar (sep : Char) : List Char → List (List Char)
  | [] => [[]]
  | c :: r =>
    let p := pySplitChar sep r
    if c = sep then [] :: p
    else
      match p with
      | [] => [[c]]
      | h :: t => (c :: h) :: t

/-- Python `str.split()` with no argument: split on whitespace runs,
discarding empty pieces. -/
def pySplitWs (s : List Char) : List (List Char) :=
  (pySplitChar ' ' (s.map fun c => if c.isWhitespace then ' ' else c)).filter
    fun p => p ≠ []

/-- Python `s.startswith(t)`. -/
def pyStartsWith (s t : List Char) : Bool :=
  s.take t.length = t

/-- Python `s.endswith(t)`. -/
def pyEndsWith (s t : List Char) : Bool :=
  decide (t.length ≤ s.length) && decide (s.drop (s.length - t.length) = t)

/-- Python slice `s[a:b]` (for `0 ≤ a ≤ b`). -/
def pySlice (s : List Char) (a b : ℕ) : List Char :=
  (s.drop a).take (b - a)

/-- Python slice `s[:-n]` for `n > 0`: everything but the last `n`
characters. -/
def pyDropRight (s : List Char) (n : ℕ) : List Char :=
  s.take (s.length - n)

/-- Value of a list of decimal digit characters, most significant first. -/
def digitsVal (l : List Char) : ℕ :=
  l.foldl (fun a c => a * 10 + (c.toNat - 48)) 0

/-- All characters are ASCII decimal digits. -/
def allDigits (l : List Char) : Bool :=
  l.all fun c => decide (48 ≤ c.toNat) && decide (c.toNat ≤ 57)

/-- Leading sign of a Python numeric literal: `(isNegative, rest)`. -/
def pySign : List Char → Bool × List Char
  | '+' :: r => (false, r)
  | '-' :: r => (true, r)
  | r => (false, r)

/-- Split a numeric literal at the first `e`/`E` (exponent marker). -/
def splitExpMark : List Char → List Char × Option (List Char)
  | [] => ([], none)
  | c :: r =>
    if c = 'e' ∨ c = 'E' then ([], some r)
    else
      let p := splitExpMark r
      (c :: p.1, p.2)

/-- Split a numeric literal at the first `.` (decimal point). -/
def splitDotMark : List Char → List Char × Option (List Char)
  | [] => ([], none)
  | c :: r =>
    if c = '.' then ([], some r)
    else
      let p := splitDotMark r
      (c :: p.1, p.2)

/-- Python builtin `float(s)` on a string, modelled exactly over ℚ for the
decimal-literal grammar `[ws] [sign] (digits [. digits] | . digits | digits .)
[(e|E) [sign] digits] [ws]` that the VOACAP fields use (`inf`/`nan` and
digit-group underscores are not modelled).  Returns `none` where Python
raises `ValueError`. -/
def pyFloat? (s : List Char) : Option ℚ :=
  let t := pyStrip s
  let sg := pySign t
  let me := splitExpMark sg.2
  let md := splitDotMark me.1
  let ip := md.1
  let fp := (md.2).getD []
  if allDigits ip && allDigits fp && decide (0 < ip.length + fp.length) then
    let base : ℚ := (digitsVal ip : ℚ) + (digitsVal fp : ℚ) / (10 : ℚ) ^ fp.length
    let signed : ℚ := if sg.1 then -base else base
    match me.2 with
    | none => some signed
    | some ex =>
      let eg := pySign ex
      if allDigits eg.2 && decide (0 < eg.2.length) then
        some (signed * (10 : ℚ) ^ (if eg.1 then -(digitsVal eg.2 : ℤ) else (digitsVal eg.2 : ℤ)))
      else none
  else none

/-- Python builtin `int(s)` on a string: `[ws] [sign] digits [ws]`.
Returns `none` where Python raises `ValueError`. -/
def pyInt? (s : List Char) : Option ℤ :=
  let t := pyStrip s
  let sg := pySign t
  if allDigits sg.2 && decide (0 < sg.2.length) then
    some (if sg.1 then -(digitsVal sg.2 : ℤ) else (digitsVal sg.2 : ℤ))
  else none

/-! ### GridLocatorCodec: `maiden2latlon` (collect_data_to_database.py,
lines 68–73) and `latlon2loc` (run_p2p_matrix.py, lines 38–66) -/

/-- Python `ord(loc[i:i+1])`: the code point of the character at index
`i`, or `none` when the slice is empty (Python raises `TypeError` on
`ord("")`). -/
def ordAt? (loc : List Char) (i : ℕ) : Option ℕ :=
  (loc[i]?).map Char.toNat

/-- `maiden2latlon(loc)` from collect_data_to_database.py: decode a
Maidenhead locator to `(lat, lon)`.  The source reads the six code points
`loc[0:1] … loc[5:6]` and combines them arithmetically; it performs no
range validation, and the only failure mode is an empty slice (fewer than
6 characters). -/
def maiden2latlon (loc : List Char) : Option (ℚ × ℚ) := do
  let c0 ← ordAt? loc 0
  let c1 ← ordAt? loc 1
  let c2 ← ordAt? loc 2
  let c3 ← ordAt? loc 3
  let c4 ← ordAt? loc 4
  let c5 ← ordAt? loc 5
  pure (((c1 : ℚ) - 65) * 10 - 90 + ((c3 : ℚ) - 48) + ((c5 : ℚ) - 65) / 24 + 1 / 48,
        ((c0 : ℚ) - 65) * 20 - 180 + ((c2 : ℚ) - 48) * 2 + ((c4 : ℚ) - 65) / 12 + 1 / 24)

/-- Python `divmod(x, y)` on floats, over ℚ: `(⌊x/y⌋, x - y*⌊x/y⌋)`. -/
def divmodQ (x y : ℚ) : ℤ × ℚ :=
  (⌊x / y⌋, x - y * ⌊x / y⌋)

/-- Decimal digit characters of a natural number, as Python `str(n)`
renders them (fueled structural recursion; `fuel ≥ n` suffices). -/
def natDecimal (fuel n : ℕ) : List Char :=
  match fuel with
  | 0 => []
  | f + 1 =>
    if n < 10 then [Char.ofNat (48 + n)]
    else natDecimal f (n / 10) ++ [Char.ofNat (48 + n % 10)]

/-- Python `str(int(x))` for an integer `x`, as a character list. -/
def pyIntStr (n : ℤ) : List Char :=
  if n < 0 then '-' :: natDecimal (n.natAbs + 1) n.natAbs
  else natDecimal (n.toNat + 1) n.toNat

/-- The `while i < precision` loop of `latlon2loc`: each iteration first
increments `i`, then appends a digit pair when the new `i` is even
(rescaling the fractions by 24) and a letter pair when it is odd
(rescaling by 10).  `fuel` is the number of remaining iterations,
`precision - i`. -/
def latlon2locLoop : ℕ → ℕ → ℚ → ℚ → List Char
  | 0, _, _, _ => []
  | f + 1, i, lon, lat =>
    let a := divmodQ lon 1
    let b := divmodQ lat 1
    if (i + 1) % 2 = 0 then
      pyIntStr a.1 ++ pyIntStr b.1 ++ latlon2locLoop f (i + 1) (24 * a.2) (24 * b.2)
    else
      [Char.ofNat (65 + a.1).toNat, Char.ofNat (65 + b.1).toNat]
        ++ latlon2locLoop f (i + 1) (10 * a.2) (10 * b.2)

/-- `latlon2loc(lat, lon, precision)` from run_p2p_matrix.py: construct a
Maidenhead locator.  Note the final `.upper()` of the source, which
re-uppercases the two characters just lower-cased (the slice assignment
`astring[:4] + astring[4:6].lower() + astring[6:]` is consequently dead
code), and that `precision` counts character *pairs*. -/
def latlon2loc (lat lon : ℚ) (precision : ℕ) : List Char :=
  let a := divmodQ (lon + 180) 20
  let b := divmodQ (lat + 90) 10
  let s := [Char.ofNat (65 + a.1).toNat, Char.ofNat (65 + b.1).toNat]
    ++ latlon2locLoop (precision - 1) 1 (a.2 / 2) b.2
  let s2 :=
    if 6 ≤ s.length then
      s.take 4 ++ ((s.drop 4).take 2).map Char.toLower ++ s.drop 6
    else s
  s2.map Char.toUpper

/-- A locator is well formed at 6 characters when the field letters lie in
`A`–`R`, the digits in `0`–`9` and the subsquare letters in `A`–`X`
(upper case, as `maiden2latlon`'s arithmetic assumes). -/
def validLocatorB : List Char → Bool
  | [c0, c1, c2, c3, c4, c5] =>
    decide (65 ≤ c0.toNat) && decide (c0.toNat ≤ 82) &&
    (decide (65 ≤ c1.toNat) && decide (c1.toNat ≤ 82)) &&
    (decide (48 ≤ c2.toNat) && decide (c2.toNat ≤ 57)) &&
    (decide (48 ≤ c3.toNat) && decide (c3.toNat ≤ 57)) &&
    (decide (65 ≤ c4.toNat) && decide (c4.toNat ≤ 88)) &&
    (decide (65 ≤ c5.toNat) && decide (c5.toNat ≤ 88))
  | _ => false

/-! ### Basic facts about `maiden2latlon`'s domain -/

/-- With six characters available every `ord(loc[i:i+1])` read succeeds, so
`maiden2latlon` returns a pair. -/
theorem maiden2latlon_isSome_of_length (loc : List Char) (h : 6 ≤ loc.length) :
    ∃ p, maiden2latlon loc = some p := by
  rcases loc with _ | ⟨a, _ | ⟨b, _ | ⟨c, _ | ⟨d, _ | ⟨e, _ | ⟨f, r⟩⟩⟩⟩⟩⟩ <;>
    simp at h
  have : (maiden2latlon (a :: b :: c :: d :: e :: f :: r)).isSome = true := by
    simp [maiden2latlon, ordAt?]
  exact Option.isSome_iff_exists.1 this

/-- With fewer than six characters one of the `ord(loc[i:i+1])` reads hits
an empty slice (Python `TypeError`), so `maiden2latlon` fails. -/
theorem maiden2latlon_eq_none_of_length (loc : List Char) (h : loc.length < 6) :
    maiden2latlon loc = none := by
  rcases loc with _ | ⟨a, _ | ⟨b, _ | ⟨c, _ | ⟨d, _ | ⟨e, _ | ⟨f, r⟩⟩⟩⟩⟩⟩ <;>
    first
      | rfl
      | (simp only [List.length_cons] at h; omega)

/-- C8 (amended): `maiden2latlon` fails exactly when the locator has fewer
than 6 characters — in particular for every locator with fewer than 4 —
and performs no character-range validation at all: every string of at
least 6 characters, whatever its alphabet, yields a coordinate pair. -/
theorem C8_decode_domain (loc : List Char) :
    (loc.length < 6 → maiden2latlon loc = none) ∧
    (6 ≤ loc.length → ∃ p, maiden2latlon loc = some p) :=
  ⟨maiden2latlon_eq_none_of_length loc, maiden2latlon_isSome_of_length loc⟩

/-- C8 witness: a 2-character locator fails; the 6-character `KP03QA`
decodes. -/
theorem C8_decode_domain_witness :
    maiden2latlon "AB".data = none ∧ ∃ p, maiden2latlon "KP03QA".data = some p :=
  ⟨(C8_decode_domain "AB".data).1 (by decide),
   (C8_decode_domain "KP03QA".data).2 (by decide)⟩

/-- C8 counterexample: `ZZ99ZZ` has both field letters and both subsquare
letters outside their expected ranges (`A`–`R` resp. `A`–`X`), yet
`maiden2latlon` happily returns a coordinate pair for it — contradicting
the claim that decode never returns a pair for such an input. -/
theorem C8_counterexample : ∃ p, maiden2latlon "ZZ99ZZ".data = some p :=
  ⟨_, rfl⟩

/-- C10: on every well-formed upper-case 6-character locator the decoded
point lies strictly inside the geographic ranges. -/
theorem C10_decode_in_geo_range (loc : List Char) (h : validLocatorB loc = true) :
    ∃ la lo, maiden2latlon loc = some (la, lo) ∧
      -90 < la ∧ la < 90 ∧ -180 < lo ∧ lo < 180 := by
  rcases loc with _ | ⟨a, _ | ⟨b, _ | ⟨c, _ | ⟨d, _ | ⟨e, _ | ⟨f, _ | ⟨g, r⟩⟩⟩⟩⟩⟩⟩ <;>
    simp [validLocatorB] at h
  obtain ⟨⟨⟨⟨⟨⟨ha1, ha2⟩, hb1, hb2⟩, hc1, hc2⟩, hd1, hd2⟩, he1, he2⟩, hf1, hf2⟩ := h
  refine ⟨_, _, rfl, ?_, ?_, ?_, ?_⟩ <;>
  · simp only [List.getElem_cons_zero, List.getElem_cons_succ]
    have qa1 : (65 : ℚ) ≤ a.toNat := by exact_mod_cast ha1
    have qa2 : (a.toNat : ℚ) ≤ 82 := by exact_mod_cast ha2
    have qb1 : (65 : ℚ) ≤ b.toNat := by exact_mod_cast hb1
    have qb2 : (b.toNat : ℚ) ≤ 82 := by exact_mod_cast hb2
    have qc1 : (48 : ℚ) ≤ c.toNat := by exact_mod_cast hc1
    have qc2 : (c.toNat : ℚ) ≤ 57 := by exact_mod_cast hc2
    have qd1 : (48 : ℚ) ≤ d.toNat := by exact_mod_cast hd1
    have qd2 : (d.toNat : ℚ) ≤ 57 := by exact_mod_cast hd2
    have qe1 : (65 : ℚ) ≤ e.toNat := by exact_mod_cast he1
    have qe2 : (e.toNat : ℚ) ≤ 88 := by exact_mod_cast he2
    have qf1 : (65 : ℚ) ≤ f.toNat := by exact_mod_cast hf1
    have qf2 : (f.toNat : ℚ) ≤ 88 := by exact_mod_cast hf2
    linarith

/-- C10 witness: the concrete locator `KP03QA`. -/
theorem C10_decode_in_geo_range_witness :
    ∃ la lo, maiden2latlon "KP03QA".data = some (la, lo) ∧
      -90 < la ∧ la < 90 ∧ -180 < lo ∧ lo < 180 :=
  C10_decode_in_geo_range "KP03QA".data (by decide)

/-! ### GridDecoder: the metric table `IMG_TYPE_DICT` and the per-line
grid decode of `VOAAreaPlot.__init__` (voaAreaPlot.py, lines 48–67 and
172–182) -/

/-- One entry of `VOAAreaPlot.IMG_TYPE_DICT`: metric kind, title, value
domain `[min, max]`, contour levels, formatter name and the byte-offset
pair of the metric's column in a grid data line. -/
structure ImageDef where
  plot_type : List Char
  title : List Char
  min : ℚ
  max : ℚ
  y_labels : List ℚ
  formatter : List Char
  first_char : ℕ
  last_char : ℕ

/-- Entry 1 of `IMG_TYPE_DICT` (MUF). -/
def mufImageDef : ImageDef :=
  ⟨"MUF".data, "Maximum Usable Frequency (MUF)".data, 2, 30,
   [2, 4, 7, 10, 14, 18, 21, 24, 28, 30], "frequency_format".data, 27, 32⟩

/-- Entry 2 of `IMG_TYPE_DICT` (REL). -/
def relImageDef : ImageDef :=
  ⟨"REL".data, "Circuit Reliability (%)".data, 0, 1,
   [0, 0.1, 0.2, 0.3, 0.4, 0.5, 0.6, 0.7, 0.8, 0.9, 1], "percent_format".data, 98, 104⟩

/-- Entry 3 of `IMG_TYPE_DICT` (SNR). -/
def snrImageDef : ImageDef :=
  ⟨"SNR".data, "Median SNR (dB/Hz)".data, 0, 100,
   [0, 10, 20, 30, 40, 50, 60, 70, 80, 90, 100], "SNR_format".data, 86, 92⟩

/-- Entry 4 of `IMG_TYPE_DICT` (SNRXX). -/
def snrxxImageDef : ImageDef :=
  ⟨"SNRXX".data, "SNR90 (dB/Hz)".data, 0, 100,
   [0, 10, 20, 30, 40, 50, 60, 70, 80, 90, 100], "SNR_format".data, 128, 134⟩

/-- Entry 5 of `IMG_TYPE_DICT` (SDBW). -/
def sdbwImageDef : ImageDef :=
  ⟨"SDBW".data, "Signal Power (dBW)".data, -160, -60,
   [-160, -150, -140, -130, -120, -110, -100, -90, -80, -70, -60], "SDBW_format".data, 74, 80⟩

/-- Entry 6 of `IMG_TYPE_DICT` (S-meter). -/
def smeterImageDef : ImageDef :=
  ⟨"SMETESNRXXR".data, "S-Meter".data, -151.18, -43.01,
   [-151.18, -139.13, -127.09, -115.05, -103.01, -83.01, -63.01, -43.01],
   "SMETER_format".data, 74, 80⟩

/-- `IMG_TYPE_DICT` from voaAreaPlot.py, reproduced entry by entry. -/
def IMG_TYPE_DICT : List (ℕ × ImageDef) :=
  [(1, mufImageDef), (2, relImageDef), (3, snrImageDef),
   (4, snrxxImageDef), (5, sdbwImageDef), (6, smeterImageDef)]

/-- The two clamp statements `value = max(min, value); value = min(max,
value)` of voaAreaPlot.py lines 179–180. -/
def clampValue (d : ImageDef) (raw : ℚ) : ℚ :=
  min d.max (max d.min raw)

/-- The header detection `re.compile(r"[a-z]+").search(line)`: a line is
skipped exactly when it contains some lowercase ASCII letter. -/
def hasLowercase (s : List Char) : Bool :=
  s.any fun c => decide (97 ≤ c.toNat) && decide (c.toNat ≤ 122)

/-- Numpy integer indexing into an axis of length `n`: indices in
`[0, n)` are used directly, indices in `[-n, 0)` wrap around from the
end, and anything else raises `IndexError` (`none`). -/
def npIndex (n : ℕ) (i : ℤ) : Option (Fin n) :=
  if h : 0 ≤ i ∧ i < (n : ℤ) then some ⟨i.toNat, by omega⟩
  else if h2 : -(n : ℤ) ≤ i ∧ i < 0 then some ⟨(i + n).toNat, by omega⟩
  else none

/-- One iteration of the grid-file loop of `VOAAreaPlot.__init__` (lines
175–181): skip lines containing lowercase letters; otherwise parse
`float(line[first_char:last_char])`, clamp it into the metric domain, and
assign `points[int(line[3:6]) - 1][int(line[0:3]) - 1]`.  A `ValueError`
from `float`/`int` or an `IndexError` from numpy indexing propagates
uncaught (`Except.error`). -/
def gridDecodeLine (d : ImageDef) (n : ℕ) (s : List Char)
    (points : Fin n → Fin n → ℚ) : Except Unit (Fin n → Fin n → ℚ) :=
  if hasLowercase s then .ok points
  else
    match pyFloat? (pySlice s d.first_char d.last_char) with
    | none => .error ()
    | some raw =>
      let value := clampValue d raw
      match pyInt? (pySlice s 3 6), pyInt? (pySlice s 0 3) with
      | some r, some c =>
        match npIndex n (r - 1), npIndex n (c - 1) with
        | some ri, some ci => .ok fun i j => if i = ri ∧ j = ci then value else points i j
        | _, _ => .error ()
      | _, _ => .error ()

/-- Clamping facts that hold for any metric whose declared domain is
nonempty. -/
theorem clampValue_facts (d : ImageDef) (hd : d.min ≤ d.max) (raw : ℚ) :
    (d.max < raw → clampValue d raw = d.max) ∧
    (raw < d.min → clampValue d raw = d.min) ∧
    d.min ≤ clampValue d raw ∧ clampValue d raw ≤ d.max := by
  unfold clampValue
  refine ⟨fun h => ?_, fun h => ?_, ?_, ?_⟩
  · rw [max_eq_right (le_of_lt (lt_of_le_of_lt hd h))]
    exact min_eq_left (le_of_lt h)
  · rw [max_eq_left (le_of_lt h)]
    exact min_eq_right hd
  · exact le_min hd (le_max_left _ _)
  · exact min_le_left _ _

theorem gridDecodeLine_ok_values (d : ImageDef) (hd : d.min ≤ d.max) (n : ℕ)
    (s : List Char) (pts pts' : Fin n → Fin n → ℚ)
    (hok : gridDecodeLine d n s pts = .ok pts') (i j : Fin n) :
    pts' i j = pts i j ∨ (d.min ≤ pts' i j ∧ pts' i j ≤ d.max) := by
  by_cases hlc : hasLowercase s = true
  · unfold gridDecodeLine at hok
    rw [if_pos hlc] at hok
    cases hok
    exact Or.inl rfl
  · rw [Bool.not_eq_true] at hlc
    rcases hF : pyFloat? (pySlice s d.first_char d.last_char) with _ | raw <;>
      rcases hR : pyInt? (pySlice s 3 6) with _ | r <;>
        rcases hC : pyInt? (pySlice s 0 3) with _ | c <;>
          (try simp only [gridDecodeLine, hlc, hF, hR, hC, Bool.false_eq_true,
            if_false] at hok) <;>
          try cases hok
    rcases hRI : npIndex n (r - 1) with _ | ri <;>
      rcases hCI : npIndex n (c - 1) with _ | ci <;>
        (try simp only [hRI, hCI, Except.ok.injEq] at hok) <;>
        try cases hok
    show (if i = ri ∧ j = ci then clampValue d raw else pts i j) = pts i j ∨
      (d.min ≤ (if i = ri ∧ j = ci then clampValue d raw else pts i j) ∧
        (if i = ri ∧ j = ci then clampValue d raw else pts i j) ≤ d.max)
    by_cases hij : i = ri ∧ j = ci
    · rw [if_pos hij]
      exact Or.inr ⟨(clampValue_facts d hd raw).2.2.1,
        (clampValue_facts d hd raw).2.2.2⟩
    · rw [if_neg hij]
      exact Or.inl rfl

/-- C5: for every metric kind in `IMG_TYPE_DICT`, the stored cell value is
the raw value clamped into the declared domain — a raw value above `max`
decodes to exactly `max`, one below `min` to exactly `min` — and every
cell a grid line writes lies inside `[min, max]`. -/
theorem C5_grid_clamp :
    ∀ p ∈ IMG_TYPE_DICT, ∀ raw : ℚ,
      ((p.2).max < raw → clampValue p.2 raw = (p.2).max) ∧
      (raw < (p.2).min → clampValue p.2 raw = (p.2).min) ∧
      (p.2).min ≤ clampValue p.2 raw ∧ clampValue p.2 raw ≤ (p.2).max ∧
      ∀ (n : ℕ) (s : List Char) (pts pts' : Fin n → Fin n → ℚ),
        gridDecodeLine p.2 n s pts = .ok pts' →
        ∀ i j, pts' i j = pts i j ∨ ((p.2).min ≤ pts' i j ∧ pts' i j ≤ (p.2).max) := by
  intro p hp raw
  have hd : (p.2).min ≤ (p.2).max := by
    unfold IMG_TYPE_DICT at hp
    fin_cases hp <;> norm_num [mufImageDef, relImageDef, snrImageDef,
      snrxxImageDef, sdbwImageDef, smeterImageDef]
  obtain ⟨h1, h2, h3, h4⟩ := clampValue_facts p.2 hd raw
  exact ⟨h1, h2, h3, h4,
    fun n s pts pts' hok i j => gridDecodeLine_ok_values p.2 hd n s pts pts' hok i j⟩

/-- C5 witness: the MUF metric at raw value 100 stays inside `[2, 30]`. -/
theorem C5_grid_clamp_witness :
    mufImageDef.min ≤ clampValue mufImageDef 100 ∧
      clampValue mufImageDef 100 ≤ mufImageDef.max :=
  ⟨(C5_grid_clamp (1, mufImageDef) (by simp [IMG_TYPE_DICT]) 100).2.2.1,
   (C5_grid_clamp (1, mufImageDef) (by simp [IMG_TYPE_DICT]) 100).2.2.2.1⟩

/-- Indices outside both the direct range `[0, n)` and the wrap-around
range `[-n, 0)` make numpy indexing raise. -/
theorem npIndex_eq_none (n : ℕ) (i : ℤ) (h : (n : ℤ) ≤ i ∨ i < -(n : ℤ)) :
    npIndex n i = none := by
  unfold npIndex
  rw [dif_neg (by omega), dif_neg (by omega)]

/-- C6 (amended): a grid data line whose 0-based row or column index falls
outside `[-n, n)` is not silently dropped: the numpy assignment raises an
uncaught `IndexError` and the whole grid decode aborts. -/
theorem C6_grid_out_of_range_raises (n : ℕ) (d : ImageDef) (s : List Char)
    (pts : Fin n → Fin n → ℚ) (r c : ℤ)
    (hlc : hasLowercase s = false)
    (hf : (pyFloat? (pySlice s d.first_char d.last_char)).isSome = true)
    (hr : pyInt? (pySlice s 3 6) = some r)
    (hc : pyInt? (pySlice s 0 3) = some c)
    (hout : (n : ℤ) ≤ r - 1 ∨ r - 1 < -(n : ℤ) ∨ (n : ℤ) ≤ c - 1 ∨ c - 1 < -(n : ℤ)) :
    gridDecodeLine d n s pts = .error () := by
  obtain ⟨raw, hraw⟩ := Option.isSome_iff_exists.1 hf
  have hnone : npIndex n (r - 1) = none ∨ npIndex n (c - 1) = none := by
    rcases hout with h | h | h | h
    · exact Or.inl (npIndex_eq_none n (r - 1) (Or.inl h))
    · exact Or.inl (npIndex_eq_none n (r - 1) (Or.inr h))
    · exact Or.inr (npIndex_eq_none n (c - 1) (Or.inl h))
    · exact Or.inr (npIndex_eq_none n (c - 1) (Or.inr h))
  rcases hRI : npIndex n (r - 1) with _ | ri <;>
    rcases hCI : npIndex n (c - 1) with _ | ci <;>
      simp only [gridDecodeLine, hlc, hraw, hr, hc, hRI, hCI,
        Bool.false_eq_true, if_false]
  rcases hnone with h0 | h0
  · rw [hRI] at h0
    cases h0
  · rw [hCI] at h0
    cases h0

/-- C6 witness: a 32-character line addressing row 7 of a 2×2 grid makes
the decode return the raised-error outcome. -/
theorem C6_grid_out_of_range_raises_witness :
    gridDecodeLine mufImageDef 2 "  1  7                     10.00".data
      (fun _ _ => 0) = .error () :=
  C6_grid_out_of_range_raises 2 mufImageDef _ _ 7 1 (by decide) (by decide)
    (by decide) (by decide) (Or.inl (by decide))

/-- C6 counterexample: a well-formed 80-character SDBW line addressing row
9 of a 3×3 grid evaluates to the raised-`IndexError` outcome, not to a
successfully decoded grid with the cell dropped — contradicting the claim
that no exception is raised and decoding of the remaining lines
continues. -/
theorem C6_counterexample :
    gridDecodeLine sdbwImageDef 3
      ("  1  9" ++ String.mk (List.replicate 68 ' ') ++ "-100.0").data
      (fun _ _ => -100) = .error () := by
  rfl

/-! ### RecordStream parser: `collect_data` of collect_data_to_database.py
(lines 86–141) with its module-level context (line 152) -/

/-- A dynamically typed Python value as held in the parser's module-level
globals and appended rows: a float or a string. -/
inductive Val where
  | num (q : ℚ)
  | str (s : List Char)
deriving DecidableEq

/-- The module-level mutable context of collect_data_to_database.py:
`txlat, txlon, utc, month, freq`. -/
structure Ctx where
  txlat : Val
  txlon : Val
  utc : Val
  month : Val
  freq : Val
deriving DecidableEq

/-- Line 152 of the source: `txlat, txlon, utc, month, freq = -1, -1, -1,
-1, -1` — the sentinel context before any header line. -/
def sentinelCtx : Ctx :=
  ⟨.num (-1), .num (-1), .num (-1), .num (-1), .num (-1)⟩

/-- `convert(s)` from collect_data_to_database.py: a float stays itself;
a string becomes its float value when it parses and its stripped text
otherwise. -/
def convertV : Val → Val
  | .num q => .num q
  | .str s =>
    match pyFloat? s with
    | some q => .num q
    | none => .str (pyStrip s)

/-- Using a context value in float arithmetic: numbers pass through,
strings would raise `TypeError`. -/
def Val.asNum? : Val → Option ℚ
  | .num q => some q
  | .str _ => none

/-- Python `v[:-n]` on a context value: slicing an int raises `TypeError`
(`none`); slicing a string drops its last `n` characters. -/
def Val.sliceDrop? : Val → ℕ → Option Val
  | .num _, _ => none
  | .str s, n => some (.str (pyDropRight s n))

/-- The token list after the first `]` of a header line:
`line.decode().strip().split("]")[1].strip().split()`.  `none` models the
`IndexError` when the line contains no `]`. -/
def headerTokens? (line : List Char) : Option (List (List Char)) :=
  ((pySplitChar ']' (pyStrip line))[1]?).map fun seg => pySplitWs (pyStrip seg)

/-- The transmitter locator of a header line:
`data_line[0].split("[")[0].strip()`. -/
def headerGrid (line : List Char) : List Char :=
  pyStrip ((pySplitChar '[' ((pySplitChar ']' (pyStrip line)).getD 0 [])).getD 0 [])

/-- The header branch of `collect_data` (lines 102–106).  The tuple
unpacking `_, _, utc, freq, month, _ = …` assigns nothing unless the
token count is exactly 6 (`ValueError` otherwise, context untouched);
after a successful unpack `utc`, `freq`, `month` are already replaced,
so a locator-decoding failure (`maiden2latlon` on fewer than 6
characters) leaves the globals partially updated.  `Except.error` carries
the global context as it stands when the uncaught exception escapes. -/
def headerStep (ctx : Ctx) (line : List Char) : Except Ctx Ctx :=
  match headerTokens? line with
  | none => .error ctx
  | some toks =>
    if toks.length = 6 then
      let ctx2 : Ctx := { ctx with utc := .str (toks.getD 2 []),
                                   freq := .str (toks.getD 3 []),
                                   month := .str (toks.getD 4 []) }
      match maiden2latlon (headerGrid line) with
      | none => .error ctx2
      | some p => .ok { ctx2 with txlat := .num p.1, txlon := .num p.2 }
    else .error ctx

/-- Byte ranges of the used columns of `col_format =
'3s3s10s10s6s…6s'` — the two leading 3-byte fields are unpacked into `_`
and dropped; what remains is rx lat (10 bytes), rx lon (10 bytes) and the
24 six-byte metric fields. -/
def dataFieldBounds : List (ℕ × ℕ) :=
  (6, 16) :: (16, 26) :: (List.range 24).map fun k => (26 + 6 * k, 32 + 6 * k)

/-- `struct.unpack(col_format, line)`: succeeds exactly on 170-byte
lines, yielding the 26 used field strings (`struct.error`, caught by the
bare `except`, otherwise). -/
def unpackLine? (line : List Char) : Option (List (List Char)) :=
  if line.length = 170 then some (dataFieldBounds.map fun p => pySlice line p.1 p.2)
  else none

/-- One appended row of `rows`. -/
abbrev Record := List Val

/-- The first five entries of a row: `convert(utc[:-2]), convert(month),
convert(freq[:-3]), convert(txlat), convert(txlon)`.  Slicing fails with
`TypeError` while `utc`/`freq` still hold the integer sentinel. -/
def recHead? (ctx : Ctx) : Option (List Val) := do
  let u ← ctx.utc.sliceDrop? 2
  let f ← ctx.freq.sliceDrop? 3
  pure [convertV u, convertV ctx.month, convertV f, convertV ctx.txlat,
        convertV ctx.txlon]

/-- The try-block of `collect_data` (lines 108–141): unpack the
fixed-width line, convert the receiver coordinates with `float`, call
`calculate_km_deg` (abstracted as `kmdeg`), and build the appended row;
any failure is swallowed by the bare `except` and yields no row. -/
def dataStep (kmdeg : ℚ → ℚ → ℚ → ℚ → ℚ × ℚ) (ctx : Ctx) (line : List Char) :
    Option Record := do
  let fs ← unpackLine? line
  let rxlat ← pyFloat? (fs.getD 0 [])
  let rxlon ← pyFloat? (fs.getD 1 [])
  let tla ← ctx.txlat.asNum?
  let tlo ← ctx.txlon.asNum?
  let kd := kmdeg tla tlo rxlat rxlon
  let hd ← recHead? ctx
  pure (hd ++ fs.map (fun f => convertV (.str f)) ++ [.num kd.1, .num kd.2])

/-- Outcome of one `collect_data` call: a (possibly absent) appended row
with the context as left in the globals, or an uncaught exception
(`raised`) escaping the function with the globals as mutated so far. -/
inductive StepOut where
  | ok (ctx : Ctx) (rec : Option Record)
  | raised (ctx : Ctx)
deriving DecidableEq

/-- `collect_data(line)` (lines 86–141): skip the vendor banner and the
footer marker, process a trailing-`ssn` header line (whose parse errors
are NOT caught), then fall through to the fixed-width try-block on the
very same line. -/
def collect_data (kmdeg : ℚ → ℚ → ℚ → ℚ → ℚ × ℚ) (ctx : Ctx)
    (line : List Char) : StepOut :=
  if pyStartsWith line "VOACAPL".data then .ok ctx none
  else if pyEndsWith line "PWRCTANGLER".data then .ok ctx none
  else if pyEndsWith line "ssn".data then
    match headerStep ctx line with
    | .error c => .raised c
    | .ok c => .ok c (dataStep kmdeg c line)
  else .ok ctx (dataStep kmdeg ctx line)

/-- Sequential fold of `collect_data` over the lines of one file (the
worker pool serializes each call under `global_lock`); an uncaught
exception aborts the remaining lines, keeping the rows already
appended. -/
def runLines (kmdeg : ℚ → ℚ → ℚ → ℚ → ℚ × ℚ) (ctx : Ctx) :
    List (List Char) → Ctx × List Record
  | [] => (ctx, [])
  | l :: ls =>
    match collect_data kmdeg ctx l with
    | .raised c => (c, [])
    | .ok c r =>
      let dc := runLines kmdeg c ls
      (dc.1, r.toList ++ dc.2)

/-- The record (if any) that a non-header line contributes under a fixed
context. -/
def lineOut (kmdeg : ℚ → ℚ → ℚ → ℚ → ℚ × ℚ) (ctx : Ctx) (l : List Char) :
    Option Record :=
  if pyStartsWith l "VOACAPL".data then none
  else if pyEndsWith l "PWRCTANGLER".data then none
  else dataStep kmdeg ctx l

/-- A trivial stand-in for `calculate_km_deg` used to instantiate the
abstract geodesy parameter at concrete inputs. -/
def kmdeg0 : ℚ → ℚ → ℚ → ℚ → ℚ × ℚ := fun _ _ _ _ => (0, 0)

/-- The well-formed-header check used by claim C2: a trailing-`ssn` line
that is neither banner nor footer, tokenizes to exactly six tokens after
the `]`, carries a locator of at least six characters, and is not itself
170 bytes wide (so the fall-through unpack cannot also fire). -/
def wellFormedHeaderB (line : List Char) : Bool :=
  pyEndsWith line "ssn".data &&
  !pyStartsWith line "VOACAPL".data &&
  !pyEndsWith line "PWRCTANGLER".data &&
  (match headerTokens? line with
   | some t => decide (t.length = 6)
   | none => false) &&
  decide (6 ≤ (headerGrid line).length) &&
  !decide (line.length = 170)

/-- The well-formed-data-line check used by claims C2 and C9: exactly 170
bytes, none of the three marker shapes, and numerically parsable receiver
coordinates. -/
def wellFormedDataB (line : List Char) : Bool :=
  decide (line.length = 170) &&
  !pyStartsWith line "VOACAPL".data &&
  !pyEndsWith line "PWRCTANGLER".data &&
  !pyEndsWith line "ssn".data &&
  (pyFloat? (pySlice line 6 16)).isSome &&
  (pyFloat? (pySlice line 16 26)).isSome

/-- A context is ready when the transmitter coordinates are numbers and
`utc`/`freq` are strings — exactly what a successful header line
establishes. -/
def ctxReadyB (ctx : Ctx) : Bool :=
  (match ctx.txlat with | .num _ => true | .str _ => false) &&
  (match ctx.txlon with | .num _ => true | .str _ => false) &&
  (match ctx.utc with | .num _ => false | .str _ => true) &&
  (match ctx.freq with | .num _ => false | .str _ => true)

/-! ### Structural lemmas about `collect_data` -/

/-- A line that does not end in `ssn` never touches the context and never
raises: it contributes exactly `lineOut`. -/
theorem collect_data_not_header (kmdeg : ℚ → ℚ → ℚ → ℚ → ℚ × ℚ) (ctx : Ctx)
    (l : List Char) (h : pyEndsWith l "ssn".data = false) :
    collect_data kmdeg ctx l = .ok ctx (lineOut kmdeg ctx l) := by
  unfold collect_data lineOut
  by_cases h1 : pyStartsWith l "VOACAPL".data = true
  · rw [if_pos h1, if_pos h1]
  · rw [Bool.not_eq_true] at h1
    simp only [h1, Bool.false_eq_true, if_false]
    by_cases h2 : pyEndsWith l "PWRCTANGLER".data = true
    · rw [if_pos h2, if_pos h2]
    · rw [Bool.not_eq_true] at h2
      simp only [h2, h, Bool.false_eq_true, if_false]

/-- Lines shorter or longer than the 170-byte layout make
`struct.unpack` fail, so the try-block contributes nothing. -/
theorem dataStep_none_of_length (kmdeg : ℚ → ℚ → ℚ → ℚ → ℚ × ℚ) (ctx : Ctx)
    (l : List Char) (h : l.length ≠ 170) :
    dataStep kmdeg ctx l = none := by
  simp [dataStep, unpackLine?, h]

/-- While `utc` still holds the integer sentinel, the row construction
dies on `utc[:-2]` (a `TypeError` swallowed by the bare `except`), so no
record can be built. -/
theorem dataStep_none_of_utc_num (kmdeg : ℚ → ℚ → ℚ → ℚ → ℚ × ℚ) (ctx : Ctx)
    (l : List Char) (q : ℚ) (hutc : ctx.utc = .num q) :
    dataStep kmdeg ctx l = none := by
  have hrh : recHead? ctx = none := by
    simp [recHead?, hutc, Val.sliceDrop?]
  simp [dataStep, hrh]

/-- Folding `collect_data` over header-free lines leaves the context
unchanged and collects exactly the per-line contributions. -/
theorem runLines_no_header (kmdeg : ℚ → ℚ → ℚ → ℚ → ℚ × ℚ) (ctx : Ctx)
    (ls : List (List Char)) (h : ∀ l ∈ ls, pyEndsWith l "ssn".data = false) :
    runLines kmdeg ctx ls = (ctx, ls.filterMap (lineOut kmdeg ctx)) := by
  induction ls with
  | nil => rfl
  | cons l ls ih =>
    have h1 := collect_data_not_header kmdeg ctx l (h l (List.mem_cons_self l ls))
    have h2 := ih fun x hx => h x (List.mem_cons_of_mem l hx)
    rcases h0 : lineOut kmdeg ctx l with _ | r <;>
      simp [runLines, h1, h2, h0, List.filterMap_cons]

/-- A `filterMap` whose function succeeds on every element preserves the
length. -/
theorem filterMap_length_of_isSome {α β : Type} (f : α → Option β)
    (ls : List α) (h : ∀ l ∈ ls, (f l).isSome = true) :
    (ls.filterMap f).length = ls.length := by
  induction ls with
  | nil => rfl
  | cons l ls ih =>
    obtain ⟨b, hb⟩ := Option.isSome_iff_exists.1 (h l (List.mem_cons_self l ls))
    simp [List.filterMap_cons, hb, ih fun x hx => h x (List.mem_cons_of_mem l hx)]

/-- Unpacking the parts of a well-formed data line. -/
theorem wellFormedDataB_spec (l : List Char) (h : wellFormedDataB l = true) :
    l.length = 170 ∧ pyStartsWith l "VOACAPL".data = false ∧
    pyEndsWith l "PWRCTANGLER".data = false ∧
    pyEndsWith l "ssn".data = false ∧
    (pyFloat? (pySlice l 6 16)).isSome = true ∧
    (pyFloat? (pySlice l 16 26)).isSome = true := by
  simp only [wellFormedDataB, Bool.and_eq_true, Bool.not_eq_true',
    decide_eq_true_eq] at h
  exact ⟨h.1.1.1.1.1, h.1.1.1.1.2, h.1.1.1.2, h.1.1.2, h.1.2, h.2⟩

/-- A ready context always yields the five-entry row head. -/
theorem recHead?_of_ready (ctx : Ctx) (hr : ctxReadyB ctx = true) :
    ∃ hd, recHead? ctx = some hd ∧ hd.length = 5 := by
  rcases ctx with ⟨tla, tlo, u, m, f⟩
  cases tla with
  | str s => simp [ctxReadyB] at hr
  | num a =>
  cases tlo with
  | str s => simp [ctxReadyB] at hr
  | num b =>
  cases u with
  | num q => simp [ctxReadyB] at hr
  | str us =>
  cases f with
  | num q => simp [ctxReadyB] at hr
  | str fs =>
    exact ⟨[convertV (.str (pyDropRight us 2)), convertV m,
      convertV (.str (pyDropRight fs 3)), convertV (.num a), convertV (.num b)],
      rfl, rfl⟩

/-- On a ready context and a well-formed data line the try-block of
`collect_data` appends one row whose first five entries are the row
head determined by the context. -/
theorem dataStep_shape (kmdeg : ℚ → ℚ → ℚ → ℚ → ℚ × ℚ) (ctx : Ctx)
    (l : List Char) (hr : ctxReadyB ctx = true) (hw : wellFormedDataB l = true) :
    ∃ hd rest, recHead? ctx = some hd ∧ hd.length = 5 ∧
      dataStep kmdeg ctx l = some (hd ++ rest) := by
  obtain ⟨hd, hhd, hlen⟩ := recHead?_of_ready ctx hr
  obtain ⟨h170, _, _, _, hF1, hF2⟩ := wellFormedDataB_spec l hw
  have hu : unpackLine? l = some (dataFieldBounds.map fun p => pySlice l p.1 p.2) := by
    simp [unpackLine?, h170]
  obtain ⟨r1, hr1⟩ := Option.isSome_iff_exists.1 hF1
  obtain ⟨r2, hr2⟩ := Option.isSome_iff_exists.1 hF2
  have e0 : (dataFieldBounds.map fun p => pySlice l p.1 p.2).getD 0 [] = pySlice l 6 16 := rfl
  have e1 : (dataFieldBounds.map fun p => pySlice l p.1 p.2).getD 1 [] = pySlice l 16 26 := rfl
  have htla : ∃ q, ctx.txlat.asNum? = some q := by
    rcases ctx with ⟨tla, tlo, u, m, f⟩
    cases tla <;> simp_all [ctxReadyB, Val.asNum?]
  have htlo : ∃ q, ctx.txlon.asNum? = some q := by
    rcases ctx with ⟨tla, tlo, u, m, f⟩
    cases tlo <;> simp_all [ctxReadyB, Val.asNum?]
  obtain ⟨tq, htq⟩ := htla
  obtain ⟨oq, hoq⟩ := htlo
  refine ⟨hd, (dataFieldBounds.map fun p => pySlice l p.1 p.2).map
      (fun f => convertV (.str f)) ++
      [.num (kmdeg tq oq r1 r2).1, .num (kmdeg tq oq r1 r2).2], hhd, hlen, ?_⟩
  simp [dataStep, hu, e0, e1, hr1, hr2, htq, hoq, hhd, List.append_assoc]
  rw [show (Option.map (fun p => pySlice l p.1 p.2) dataFieldBounds[0]?).getD []
        = pySlice l 6 16 from rfl,
      show (Option.map (fun p => pySlice l p.1 p.2) dataFieldBounds[1]?).getD []
        = pySlice l 16 26 from rfl, hr1, hr2]
  rfl

/-- A well-formed header line drives `headerStep` to a fully updated,
ready context. -/
theorem headerStep_ok_of_wf (ctx : Ctx) (line : List Char)
    (toks : List (List Char))
    (ht : headerTokens? line = some toks) (h6 : toks.length = 6)
    (hg : 6 ≤ (headerGrid line).length) :
    ∃ p, maiden2latlon (headerGrid line) = some p ∧
      headerStep ctx line =
        .ok ⟨.num p.1, .num p.2, .str (toks.getD 2 []), .str (toks.getD 4 []),
             .str (toks.getD 3 [])⟩ := by
  obtain ⟨p, hp⟩ := maiden2latlon_isSome_of_length (headerGrid line) hg
  exact ⟨p, hp, by simp [headerStep, ht, h6, hp]⟩

/-- C2: one well-formed header line followed by N well-formed data lines
produces exactly N records, and every record's first five entries — utc
hour, month, frequency, transmitter latitude and longitude as decoded
from the header locator — coincide with the head determined by the
context that the header established. -/
theorem C2_header_propagation (kmdeg : ℚ → ℚ → ℚ → ℚ → ℚ × ℚ)
    (h : List Char) (ds : List (List Char))
    (hh : wellFormedHeaderB h = true)
    (hd : ∀ l ∈ ds, wellFormedDataB l = true) :
    ∃ ctx2 hd5,
      headerStep sentinelCtx h = .ok ctx2 ∧
      recHead? ctx2 = some hd5 ∧
      (runLines kmdeg sentinelCtx (h :: ds)).2.length = ds.length ∧
      ∀ r ∈ (runLines kmdeg sentinelCtx (h :: ds)).2, r.take 5 = hd5 := by
  rcases hT : headerTokens? h with _ | toks
  · rw [wellFormedHeaderB, hT] at hh
    simp at hh
  simp only [wellFormedHeaderB, hT, Bool.and_eq_true, Bool.not_eq_true',
    decide_eq_true_eq, decide_eq_false_iff_not] at hh
  obtain ⟨⟨⟨⟨⟨hssn, hban⟩, hfoot⟩, h6⟩, hgrid⟩, h170⟩ := hh
  obtain ⟨p, hp, hstep⟩ := headerStep_ok_of_wf sentinelCtx h toks hT h6 hgrid
  set ctx2 : Ctx := ⟨.num p.1, .num p.2, .str (toks.getD 2 []),
    .str (toks.getD 4 []), .str (toks.getD 3 [])⟩ with hctx2
  have hready : ctxReadyB ctx2 = true := rfl
  obtain ⟨hd5, hhd5, hlen5⟩ := recHead?_of_ready ctx2 hready
  have hcX : collect_data kmdeg sentinelCtx h = .ok ctx2 (dataStep kmdeg ctx2 h) := by
    simp [collect_data, hssn, hban, hfoot, hstep]
  have hdataH : dataStep kmdeg ctx2 h = none :=
    dataStep_none_of_length kmdeg ctx2 h h170
  have hnoh : ∀ l ∈ ds, pyEndsWith l "ssn".data = false :=
    fun l hl => (wellFormedDataB_spec l (hd l hl)).2.2.2.1
  have hrun : runLines kmdeg sentinelCtx (h :: ds) =
      (ctx2, List.filterMap (lineOut kmdeg ctx2) ds) := by
    simp [runLines, hcX, hdataH, runLines_no_header kmdeg ctx2 ds hnoh]
  have hshape : ∀ l ∈ ds, ∃ rest, lineOut kmdeg ctx2 l = some (hd5 ++ rest) := by
    intro l hl
    obtain ⟨_, hban', hfoot', _, _, _⟩ := wellFormedDataB_spec l (hd l hl)
    obtain ⟨hdX, rest, hhdX, _, hds⟩ := dataStep_shape kmdeg ctx2 l hready (hd l hl)
    rw [hhd5] at hhdX
    cases hhdX
    exact ⟨rest, by simp [lineOut, hban', hfoot', hds]⟩
  refine ⟨ctx2, hd5, hstep, hhd5, ?_, ?_⟩
  · rw [hrun]
    exact filterMap_length_of_isSome _ ds fun l hl => by
      obtain ⟨rest, hrest⟩ := hshape l hl
      simp [hrest]
  · intro r hr
    rw [hrun] at hr
    simp only [List.mem_filterMap] at hr
    obtain ⟨l, hl, hfl⟩ := hr
    obtain ⟨rest, hrest⟩ := hshape l hl
    rw [hrest] at hfl
    cases hfl
    rw [show (5 : ℕ) = hd5.length from hlen5.symm, List.take_left]

/-! ### Concrete inputs for witnesses and counterexamples -/

/-- The header line documented in the source comment (line 101):
`KP03QA [1/4 wl Gud] 1.5kW -1deg 24ut 3.500MHz Oct 25ssn`. -/
def hline1 : List Char :=
  "KP03QA [1/4 wl Gud] 1.5kW -1deg 24ut 3.500MHz Oct 25ssn".data

/-- A 170-byte data line: receiver at (10.00, 20.00) and twenty-four
placeholder metric fields of `   1.0`. -/
def dline1 : List Char :=
  "  1  2     10.00     20.00".data ++ (List.replicate 24 "   1.0".data).flatten

/-- A second 170-byte data line: receiver at (30.00, 40.00). -/
def dline2 : List Char :=
  "  1  3     30.00     40.00".data ++ (List.replicate 24 "   2.0".data).flatten

/-- C2 witness: the documented header followed by one well-formed data
line yields exactly one record carrying the header's context. -/
theorem C2_header_propagation_witness :
    ∃ ctx2 hd5,
      headerStep sentinelCtx hline1 = .ok ctx2 ∧
      recHead? ctx2 = some hd5 ∧
      (runLines kmdeg0 sentinelCtx (hline1 :: [dline1])).2.length = 1 ∧
      ∀ r ∈ (runLines kmdeg0 sentinelCtx (hline1 :: [dline1])).2, r.take 5 = hd5 :=
  C2_header_propagation kmdeg0 hline1 [dline1] (by decide) (by decide)

/-- C3 (amended): while the context still holds the integer sentinel
(`utc = -1`), a data line appearing before any header produces NO record:
the row construction dies on `utc[:-2]` with a `TypeError` swallowed by
the bare `except`, and the line is silently dropped. -/
theorem C3_sentinel_drops (kmdeg : ℚ → ℚ → ℚ → ℚ → ℚ × ℚ) (ctx : Ctx)
    (l : List Char) (q : ℚ) (hutc : ctx.utc = .num q)
    (hssn : pyEndsWith l "ssn".data = false) :
    collect_data kmdeg ctx l = .ok ctx none := by
  rw [collect_data_not_header kmdeg ctx l hssn]
  unfold lineOut
  split
  · rfl
  · split
    · rfl
    · rw [dataStep_none_of_utc_num kmdeg ctx l q hutc]

/-- C3 witness: the concrete well-formed data line under the sentinel
context. -/
theorem C3_sentinel_drops_witness :
    collect_data kmdeg0 sentinelCtx dline1 = .ok sentinelCtx none :=
  C3_sentinel_drops kmdeg0 sentinelCtx dline1 (-1) rfl (by decide)

/-- C3 counterexample: a well-formed fixed-width data line processed
before any header evaluates to `.ok sentinelCtx none` — no record at all
is emitted — contradicting the claim that a record with the sentinel
transmitter and geodesy-derived km/deg is still produced. -/
theorem C3_counterexample :
    collect_data kmdeg0 sentinelCtx dline2 = .ok sentinelCtx none := by
  rfl

/-- C4 (amended): a failed header line is NOT contained — the exception
escapes `collect_data` (fatal to the file loop that iterates the
executor's results).  On a token-count mismatch (or a missing `]`) the
context is still untouched, but when tokenization succeeds and only the
locator decode fails, `utc`, `freq` and `month` have already been
replaced while `txlat`/`txlon` keep their old values: the context is left
partially changed, not entirely unchanged. -/
theorem C4_header_error_behavior :
    (∀ (kmdeg : ℚ → ℚ → ℚ → ℚ → ℚ × ℚ) (ctx : Ctx) (l : List Char),
        pyStartsWith l "VOACAPL".data = false →
        pyEndsWith l "PWRCTANGLER".data = false →
        pyEndsWith l "ssn".data = true →
        (∀ t, headerTokens? l = some t → t.length ≠ 6) →
        collect_data kmdeg ctx l = .raised ctx) ∧
    (∀ (kmdeg : ℚ → ℚ → ℚ → ℚ → ℚ × ℚ) (ctx : Ctx) (l : List Char)
        (t : List (List Char)),
        pyStartsWith l "VOACAPL".data = false →
        pyEndsWith l "PWRCTANGLER".data = false →
        pyEndsWith l "ssn".data = true →
        headerTokens? l = some t → t.length = 6 →
        (headerGrid l).length < 6 →
        collect_data kmdeg ctx l = .raised
          { ctx with utc := .str (t.getD 2 []), freq := .str (t.getD 3 []),
                     month := .str (t.getD 4 []) }) := by
  constructor
  · intro kmdeg ctx l hb hf hs htok
    have hhs : headerStep ctx l = .error ctx := by
      rcases hT : headerTokens? l with _ | toks
      · simp [headerStep, hT]
      · simp [headerStep, hT, htok toks hT]
    simp [collect_data, hb, hf, hs, hhs]
  · intro kmdeg ctx l t hb hf hs hT h6 hg
    have hm : maiden2latlon (headerGrid l) = none :=
      maiden2latlon_eq_none_of_length _ hg
    have hhs : headerStep ctx l = .error
        { ctx with utc := .str (t.getD 2 []), freq := .str (t.getD 3 []),
                   month := .str (t.getD 4 []) } := by
      simp [headerStep, hT, h6, hm]
    simp [collect_data, hb, hf, hs, hhs]

/-- C4 witness: a header-marked line with too few tokens after the `]`
escapes with the context untouched. -/
theorem C4_header_error_behavior_witness :
    collect_data kmdeg0 sentinelCtx "a] b c ssn".data = .raised sentinelCtx :=
  C4_header_error_behavior.1 kmdeg0 sentinelCtx _ (by decide) (by decide)
    (by decide)
    (fun t ht => by
      rw [show headerTokens? "a] b c ssn".data
            = some ["b".data, "c".data, "ssn".data] from rfl] at ht
      cases ht
      decide)

/-- C4 counterexample: a header line whose six tokens parse but whose
locator `XX` is too short leaves `collect_data` through the uncaught
`TypeError` of `maiden2latlon` — with `utc`, `freq`, `month` already
overwritten and `txlat`, `txlon` still the sentinel: the error is not
scoped to the line and the context is not left entirely unchanged. -/
theorem C4_counterexample :
    collect_data kmdeg0 sentinelCtx
        "XX [ant] 1.5kW -1deg 24ut 3.500MHz Oct 25ssn".data =
      .raised ⟨.num (-1), .num (-1), .str "24ut".data, .str "Oct".data,
               .str "3.500MHz".data⟩ ∧
    (⟨.num (-1), .num (-1), .str "24ut".data, .str "Oct".data,
      .str "3.500MHz".data⟩ : Ctx) ≠ sentinelCtx := by
  constructor
  · rfl
  · intro hEq
    have h2 := congrArg Ctx.utc hEq
    simp [sentinelCtx] at h2

/-- C7 (amended): the 170-byte fixed-width layout is necessary for a line
to be accepted, and any non-header line of a different byte length yields
zero records without raising; but the layout alone is not sufficient —
the receiver-coordinate fields must also parse as numbers and a header
must have made the context sliceable (see the counterexample). -/
theorem C7_layout_acceptance :
    (∀ (kmdeg : ℚ → ℚ → ℚ → ℚ → ℚ × ℚ) (ctx : Ctx) (l : List Char),
        pyEndsWith l "ssn".data = false → l.length ≠ 170 →
        collect_data kmdeg ctx l = .ok ctx none) ∧
    (∀ (kmdeg : ℚ → ℚ → ℚ → ℚ → ℚ × ℚ) (ctx c : Ctx) (l : List Char)
        (rec : Record),
        collect_data kmdeg ctx l = .ok c (some rec) → l.length = 170) := by
  constructor
  · intro kmdeg ctx l hs hlen
    rw [collect_data_not_header kmdeg ctx l hs]
    unfold lineOut
    split
    · rfl
    · split
      · rfl
      · rw [dataStep_none_of_length kmdeg ctx l hlen]
  · intro kmdeg ctx c l rec hok
    by_contra hlen
    unfold collect_data at hok
    split at hok
    · simp at hok
    · split at hok
      · simp at hok
      · split at hok
        · split at hok
          · simp at hok
          · rw [dataStep_none_of_length kmdeg _ l hlen] at hok
            simp at hok
        · rw [dataStep_none_of_length kmdeg ctx l hlen] at hok
          simp at hok

/-- C7 witness: a short line that is no header yields no record and no
exception. -/
theorem C7_layout_acceptance_witness :
    collect_data kmdeg0 sentinelCtx "hello".data = .ok sentinelCtx none :=
  C7_layout_acceptance.1 kmdeg0 sentinelCtx _ (by decide) (by decide)

/-- C7 counterexample: a line of exactly 170 bytes — matching the
`3s3s10s10s6s…` column layout byte for byte — whose receiver-latitude
field is not numeric yields no record even under a fully established
context, so byte-layout match alone does not characterize acceptance. -/
theorem C7_counterexample :
    collect_data kmdeg0
        ⟨.num 0, .num 0, .str "24ut".data, .str "Oct".data,
         .str "3.500MHz".data⟩ (List.replicate 170 'a') =
      .ok ⟨.num 0, .num 0, .str "24ut".data, .str "Oct".data,
           .str "3.500MHz".data⟩ none := by
  rfl

/-- C9 (amended): the global lock only serializes whole-line processing;
it does not order lines.  An execution of the pool is a sequential fold
over some scheduler-chosen permutation of the file's lines, and the
result multiset is schedule-independent exactly for the reorderings that
keep data lines after their header: permuting the data lines behind one
header line preserves the record multiset, while reordering a data line
before its header changes it (see the counterexample). -/
theorem C9_data_lines_commute (kmdeg : ℚ → ℚ → ℚ → ℚ → ℚ × ℚ) (ctx : Ctx)
    (h : List Char) (ds ds' : List (List Char)) (hperm : ds.Perm ds')
    (hns : ∀ l ∈ ds, pyEndsWith l "ssn".data = false) :
    ((runLines kmdeg ctx (h :: ds)).2).Perm ((runLines kmdeg ctx (h :: ds')).2) := by
  have hns' : ∀ l ∈ ds', pyEndsWith l "ssn".data = false :=
    fun l hl => hns l (hperm.mem_iff.2 hl)
  cases hc : collect_data kmdeg ctx h with
  | raised c =>
    simp [runLines, hc]
  | ok c r =>
    simp only [runLines, hc, runLines_no_header kmdeg c ds hns,
      runLines_no_header kmdeg c ds' hns']
    exact List.Perm.append_left _ (hperm.filterMap _)

/-- C9 witness: two data lines behind the documented header commute. -/
theorem C9_data_lines_commute_witness :
    ((runLines kmdeg0 sentinelCtx (hline1 :: [dline1, dline2])).2).Perm
      ((runLines kmdeg0 sentinelCtx (hline1 :: [dline2, dline1])).2) :=
  C9_data_lines_commute kmdeg0 sentinelCtx hline1 [dline1, dline2]
    [dline2, dline1] (List.Perm.swap dline2 dline1 []) (by decide)

/-- C9 counterexample: the same two-line file parsed in textual order
(header first) yields one record, while the schedule that runs the data
line before its header yields none — the two execution orders, both
realizable under a worker pool of size at least 2, do not produce the
same result multiset. -/
theorem C9_counterexample :
    ¬ ((runLines kmdeg0 sentinelCtx [hline1, dline1]).2.Perm
        (runLines kmdeg0 sentinelCtx [dline1, hline1]).2) := by
  intro hp
  have hlen := hp.length_eq
  rw [show (runLines kmdeg0 sentinelCtx [hline1, dline1]).2.length = 1 from rfl,
      show (runLines kmdeg0 sentinelCtx [dline1, hline1]).2.length = 0 from rfl] at hlen
  exact absurd hlen (by decide)

/-! ### Facts supporting the round-trip analysis of the codec (claim C1) -/

/-- Code points below 97 (upper-case letters and digits included) are
fixed by `str.upper()`. -/
theorem toUpper_fixed (c : Char) (h : c.toNat < 97) : c.toUpper = c := by
  simp only [Char.toUpper]
  rw [if_neg (by omega)]

/-- `Char.ofNat` inverts `Char.toNat` on small code points. -/
theorem charToNat_ofNat_of_le (n : ℕ) (h : n ≤ 130) : (Char.ofNat n).toNat = n := by
  have hv : n.isValidChar := Or.inl (by omega)
  simp only [Char.ofNat, hv, dif_pos, Char.ofNatAux, Char.toNat]
  rfl

/-- Upper-casing undoes lower-casing on an upper-case letter. -/
theorem toUpper_toLower_of_upper (c : Char) (h1 : 65 ≤ c.toNat)
    (h2 : c.toNat ≤ 90) : c.toLower.toUpper = c := by
  have hl : c.toLower = Char.ofNat (c.toNat + 32) := by
    simp only [Char.toLower]
    rw [if_pos ⟨by omega, by omega⟩]
  rw [hl]
  have ht : (Char.ofNat (c.toNat + 32)).toNat = c.toNat + 32 :=
    charToNat_ofNat_of_le _ (by omega)
  simp only [Char.toUpper, ht]
  rw [if_pos ⟨by omega, by omega⟩]
  rw [show c.toNat + 32 - 32 = c.toNat by omega, Char.ofNat_toNat]

/-- `str(int(d))` of a single decimal digit. -/
theorem pyIntStr_digit (d : ℕ) (h : d ≤ 9) :
    pyIntStr (d : ℤ) = [Char.ofNat (48 + d)] := by
  unfold pyIntStr
  rw [if_neg (by omega), Int.toNat_natCast]
  unfold natDecimal
  rw [if_pos (by omega)]

/-- Python `divmod(k*y + t, y)` recovers `(k, t)` whenever `0 ≤ t < y`. -/
theorem divmodQ_split (k : ℤ) (t y : ℚ) (hy : 0 < y) (h0 : 0 ≤ t)
    (h1 : t < y) : divmodQ ((k : ℚ) * y + t) y = (k, t) := by
  have hfl : ⌊((k : ℚ) * y + t) / y⌋ = k := by
    rw [show ((k : ℚ) * y + t) / y = t / y + (k : ℚ) by field_simp; ring,
      Int.floor_add_int]
    have h2 : ⌊t / y⌋ = 0 := by
      rw [Int.floor_eq_zero_iff, Set.mem_Ico]
      exact ⟨div_nonneg h0 hy.le, (div_lt_one hy).2 h1⟩
    rw [h2, zero_add]
  unfold divmodQ
  rw [hfl]
  simp only [Prod.mk.injEq, true_and]
  ring

/-- The two iterations of the `latlon2loc` loop at precision 3, on the
fractional data produced by decoding a valid locator: they print the two
digits and then the two subsquare letters. -/
theorem latlon2locLoop_decode (nc nd ne nf : ℕ)
    (hc1 : 48 ≤ nc) (hc2 : nc ≤ 57) (hd1 : 48 ≤ nd) (hd2 : nd ≤ 57)
    (he1 : 65 ≤ ne) (he2 : ne ≤ 88) (hf1 : 65 ≤ nf) (hf2 : nf ≤ 88) :
    latlon2locLoop 2 1
      ((((nc : ℚ) - 48) * 2 + ((ne : ℚ) - 65) / 12 + 1 / 24) / 2)
      (((nd : ℚ) - 48) + ((nf : ℚ) - 65) / 24 + 1 / 48) =
    [Char.ofNat nc, Char.ofNat nd, Char.ofNat ne, Char.ofNat nf] := by
  have qc1 : (48 : ℚ) ≤ nc := by exact_mod_cast hc1
  have qc2 : (nc : ℚ) ≤ 57 := by exact_mod_cast hc2
  have qd1 : (48 : ℚ) ≤ nd := by exact_mod_cast hd1
  have qd2 : (nd : ℚ) ≤ 57 := by exact_mod_cast hd2
  have qe1 : (65 : ℚ) ≤ ne := by exact_mod_cast he1
  have qe2 : (ne : ℚ) ≤ 88 := by exact_mod_cast he2
  have qf1 : (65 : ℚ) ≤ nf := by exact_mod_cast hf1
  have qf2 : (nf : ℚ) ≤ 88 := by exact_mod_cast hf2
  have hC : divmodQ ((((nc : ℚ) - 48) * 2 + ((ne : ℚ) - 65) / 12 + 1 / 24) / 2) 1
      = ((nc : ℤ) - 48, ((ne : ℚ) - 65) / 24 + 1 / 48) := by
    rw [show (((nc : ℚ) - 48) * 2 + ((ne : ℚ) - 65) / 12 + 1 / 24) / 2
        = (((nc : ℤ) - 48 : ℤ) : ℚ) * 1 + (((ne : ℚ) - 65) / 24 + 1 / 48) by
      push_cast; ring]
    exact divmodQ_split _ _ _ one_pos (by linarith) (by linarith)
  have hD : divmodQ (((nd : ℚ) - 48) + ((nf : ℚ) - 65) / 24 + 1 / 48) 1
      = ((nd : ℤ) - 48, ((nf : ℚ) - 65) / 24 + 1 / 48) := by
    rw [show ((nd : ℚ) - 48) + ((nf : ℚ) - 65) / 24 + 1 / 48
        = (((nd : ℤ) - 48 : ℤ) : ℚ) * 1 + (((nf : ℚ) - 65) / 24 + 1 / 48) by
      push_cast; ring]
    exact divmodQ_split _ _ _ one_pos (by linarith) (by linarith)
  have hE : divmodQ (24 * (((ne : ℚ) - 65) / 24 + 1 / 48)) 1
      = ((ne : ℤ) - 65, 1 / 2) := by
    rw [show 24 * (((ne : ℚ) - 65) / 24 + 1 / 48)
        = (((ne : ℤ) - 65 : ℤ) : ℚ) * 1 + 1 / 2 by push_cast; ring]
    exact divmodQ_split _ _ _ one_pos (by norm_num) (by norm_num)
  have hF : divmodQ (24 * (((nf : ℚ) - 65) / 24 + 1 / 48)) 1
      = ((nf : ℤ) - 65, 1 / 2) := by
    rw [show 24 * (((nf : ℚ) - 65) / 24 + 1 / 48)
        = (((nf : ℤ) - 65 : ℤ) : ℚ) * 1 + 1 / 2 by push_cast; ring]
    exact divmodQ_split _ _ _ one_pos (by norm_num) (by norm_num)
  have hstrC : pyIntStr ((nc : ℤ) - 48) = [Char.ofNat nc] := by
    rw [show (nc : ℤ) - 48 = ((nc - 48 : ℕ) : ℤ) by omega,
      pyIntStr_digit _ (by omega), show 48 + (nc - 48) = nc by omega]
  have hstrD : pyIntStr ((nd : ℤ) - 48) = [Char.ofNat nd] := by
    rw [show (nd : ℤ) - 48 = ((nd - 48 : ℕ) : ℤ) by omega,
      pyIntStr_digit _ (by omega), show 48 + (nd - 48) = nd by omega]
  simp only [latlon2locLoop, hC, hD, hE, hF]
  norm_num [hstrC, hstrD]

/-- Encoding the decoded point of a valid upper-case 6-character locator
at code precision 3 (three character pairs) rebuilds exactly the six
original characters.  The final `.upper()` of the source makes the result
upper-case throughout, overriding the lower-casing of characters 5–6. -/
theorem latlon2loc_decode (na nb nc nd ne nf : ℕ)
    (ha1 : 65 ≤ na) (ha2 : na ≤ 82) (hb1 : 65 ≤ nb) (hb2 : nb ≤ 82)
    (hc1 : 48 ≤ nc) (hc2 : nc ≤ 57) (hd1 : 48 ≤ nd) (hd2 : nd ≤ 57)
    (he1 : 65 ≤ ne) (he2 : ne ≤ 88) (hf1 : 65 ≤ nf) (hf2 : nf ≤ 88) :
    latlon2loc
      (((nb : ℚ) - 65) * 10 - 90 + ((nd : ℚ) - 48) + ((nf : ℚ) - 65) / 24 + 1 / 48)
      (((na : ℚ) - 65) * 20 - 180 + ((nc : ℚ) - 48) * 2 + ((ne : ℚ) - 65) / 12 + 1 / 24)
      3 =
    [Char.ofNat na, Char.ofNat nb, Char.ofNat nc, Char.ofNat nd,
     Char.ofNat ne, Char.ofNat nf] := by
  have qa1 : (65 : ℚ) ≤ na := by exact_mod_cast ha1
  have qa2 : (na : ℚ) ≤ 82 := by exact_mod_cast ha2
  have qb1 : (65 : ℚ) ≤ nb := by exact_mod_cast hb1
  have qb2 : (nb : ℚ) ≤ 82 := by exact_mod_cast hb2
  have qc1 : (48 : ℚ) ≤ nc := by exact_mod_cast hc1
  have qc2 : (nc : ℚ) ≤ 57 := by exact_mod_cast hc2
  have qd1 : (48 : ℚ) ≤ nd := by exact_mod_cast hd1
  have qd2 : (nd : ℚ) ≤ 57 := by exact_mod_cast hd2
  have qe1 : (65 : ℚ) ≤ ne := by exact_mod_cast he1
  have qe2 : (ne : ℚ) ≤ 88 := by exact_mod_cast he2
  have qf1 : (65 : ℚ) ≤ nf := by exact_mod_cast hf1
  have qf2 : (nf : ℚ) ≤ 88 := by exact_mod_cast hf2
  have hA : divmodQ ((((na : ℚ) - 65) * 20 - 180 + ((nc : ℚ) - 48) * 2 +
      ((ne : ℚ) - 65) / 12 + 1 / 24) + 180) 20
      = ((na : ℤ) - 65, ((nc : ℚ) - 48) * 2 + ((ne : ℚ) - 65) / 12 + 1 / 24) := by
    rw [show (((na : ℚ) - 65) * 20 - 180 + ((nc : ℚ) - 48) * 2 +
        ((ne : ℚ) - 65) / 12 + 1 / 24) + 180
        = (((na : ℤ) - 65 : ℤ) : ℚ) * 20 +
          (((nc : ℚ) - 48) * 2 + ((ne : ℚ) - 65) / 12 + 1 / 24) by push_cast; ring]
    exact divmodQ_split _ _ _ (by norm_num) (by linarith) (by linarith)
  have hB : divmodQ ((((nb : ℚ) - 65) * 10 - 90 + ((nd : ℚ) - 48) +
      ((nf : ℚ) - 65) / 24 + 1 / 48) + 90) 10
      = ((nb : ℤ) - 65, ((nd : ℚ) - 48) + ((nf : ℚ) - 65) / 24 + 1 / 48) := by
    rw [show (((nb : ℚ) - 65) * 10 - 90 + ((nd : ℚ) - 48) +
        ((nf : ℚ) - 65) / 24 + 1 / 48) + 90
        = (((nb : ℤ) - 65 : ℤ) : ℚ) * 10 +
          (((nd : ℚ) - 48) + ((nf : ℚ) - 65) / 24 + 1 / 48) by push_cast; ring]
    exact divmodQ_split _ _ _ (by norm_num) (by linarith) (by linarith)
  have hLoop := latlon2locLoop_decode nc nd ne nf hc1 hc2 hd1 hd2 he1 he2 hf1 hf2
  unfold latlon2loc
  rw [hA, hB]
  simp only
  rw [hLoop]
  have e1 : (65 + ((na : ℤ) - 65)).toNat = na := by omega
  have e2 : (65 + ((nb : ℤ) - 65)).toNat = nb := by omega
  rw [e1, e2]
  have hlen : ([Char.ofNat na, Char.ofNat nb] ++
      [Char.ofNat nc, Char.ofNat nd, Char.ofNat ne, Char.ofNat nf]).length = 6 := rfl
  rw [if_pos (by rw [hlen])]
  simp only [List.cons_append, List.nil_append, List.take, List.drop, List.map]
  rw [toUpper_fixed _ (by rw [charToNat_ofNat_of_le na (by omega)]; omega),
    toUpper_fixed _ (by rw [charToNat_ofNat_of_le nb (by omega)]; omega),
    toUpper_fixed _ (by rw [charToNat_ofNat_of_le nc (by omega)]; omega),
    toUpper_fixed _ (by rw [charToNat_ofNat_of_le nd (by omega)]; omega),
    toUpper_toLower_of_upper _ (by rw [charToNat_ofNat_of_le ne (by omega)]; omega)
      (by rw [charToNat_ofNat_of_le ne (by omega)]; omega),
    toUpper_toLower_of_upper _ (by rw [charToNat_ofNat_of_le nf (by omega)]; omega)
      (by rw [charToNat_ofNat_of_le nf (by omega)]; omega)]

/-- C1 (amended): for every valid upper-case 6-character locator L,
encoding the decoded point back at code precision 3 — three character
PAIRS, i.e. six characters — reproduces L exactly.  The result is
upper-case throughout: the lower-casing of characters 5–6 is dead code,
undone by the final `.upper()`; and precision 6 would instead emit
twelve characters (see the counterexample). -/
theorem C1_roundtrip_precision3 (loc : List Char)
    (h : validLocatorB loc = true) :
    ∃ la lo, maiden2latlon loc = some (la, lo) ∧ latlon2loc la lo 3 = loc := by
  rcases loc with _ | ⟨a, _ | ⟨b, _ | ⟨c, _ | ⟨d, _ | ⟨e, _ | ⟨f, _ | ⟨g, r⟩⟩⟩⟩⟩⟩⟩ <;>
    simp [validLocatorB] at h
  obtain ⟨⟨⟨⟨⟨⟨ha1, ha2⟩, hb1, hb2⟩, hc1, hc2⟩, hd1, hd2⟩, he1, he2⟩, hf1, hf2⟩ := h
  refine ⟨_, _, rfl, ?_⟩
  simp only [List.getElem_cons_zero, List.getElem_cons_succ]
  rw [latlon2loc_decode a.toNat b.toNat c.toNat d.toNat e.toNat f.toNat
    ha1 ha2 hb1 hb2 hc1 hc2 hd1 hd2 he1 he2 hf1 hf2]
  simp only [Char.ofNat_toNat]

/-- C1 witness: the locator `KP03QA` of the source's own header example
round-trips at precision 3. -/
theorem C1_roundtrip_precision3_witness :
    ∃ la lo, maiden2latlon "KP03QA".data = some (la, lo) ∧
      latlon2loc la lo 3 = "KP03QA".data :=
  C1_roundtrip_precision3 "KP03QA".data (by decide)

/-- C1 counterexample: for the valid locator `AA00AA`, encoding the
decoded point at precision 6 produces the TWELVE-character, all
upper-case string `AA00AA55AA00` (`precision` counts character pairs,
and the final `.upper()` leaves nothing lower-case), so
`encode(decode(L), 6) == L` fails — and the claimed case convention
(characters 5–6 lower-case) can never be met by the encoder's output. -/
theorem C1_counterexample :
    maiden2latlon "AA00AA".data = some (-4319/48, -4319/24) ∧
      latlon2loc (-4319/48 : ℚ) (-4319/24 : ℚ) 6 ≠ "AA00AA".data := by
  constructor
  · norm_num [maiden2latlon, ordAt?, show 'A'.toNat = 65 from rfl,
      show '0'.toNat = 48 from rfl]
  · have heval : latlon2loc (-4319/48 : ℚ) (-4319/24 : ℚ) 6 = "AA00AA55AA00".data := by
      norm_num [latlon2loc, latlon2locLoop, divmodQ, pyIntStr, natDecimal]
      decide
    rw [heval]
    decide
